import Mathlib

/-!
Shallow embedding of the photo service of this repository
(`src/app/shared/services/photo.service.ts`): the resilient retrieval layer
(retry decisions of `getPhotos` / `getPhotoById`, terminal error
classification in `handleError`, request URLs) and the cluster engine
(`clusterPhotos` with its scoring, weighting, normalization, sorting and
quartile slicing helpers).

JS `number` arithmetic is idealized as real arithmetic (`ℝ`); integral
quantities (ids, album ids, retry indices, millisecond delays, HTTP status
codes) are embedded as `ℕ`.
-/

namespace PhotoService

/-- An item of the remote collection, the `Photo` interface of the source. -/
structure Photo where
  albumId : ℕ
  id : ℕ
  title : String
  url : String
  thumbnailUrl : String
deriving DecidableEq, Repr

/-- Fixed collection endpoint: `API_URL` of the source, a single string literal
that already carries the `?_page=1&_limit=20` query string. -/
def API_URL : String := "https://jsonplaceholder.typicode.com/photos?_page=1&_limit=20"

/-- Retry cap `MAX_RETRIES` of the source. -/
def MAX_RETRIES : ℕ := 4

/-- Backoff base `INITIAL_DELAY` of the source, in milliseconds. -/
def INITIAL_DELAY : ℕ := 1000

/-- Request URL of `getPhotoById`: the template literal
`${this.API_URL}/${id}` of the source. -/
def getPhotoByIdUrl (id : ℕ) : String := API_URL ++ "/" ++ toString id

/-- An HTTP failure as seen by the retry handlers: its `status`, and the
`Retry-After` response header when present, already parsed to whole seconds
(the source reads `error.headers?.get('Retry-After')` and applies
`parseInt(·, 10)`). -/
structure HttpError where
  status : ℕ
  retryAfter : Option ℕ
deriving DecidableEq, Repr

/-- Outcome of one pass through a `retryWhen`/`mergeMap` handler: either
schedule the next attempt after `ms` milliseconds (`timer(delay)`), or give up
and rethrow (`throwError`). -/
inductive RetryDecision where
  | wait (ms : ℕ)
  | fail
deriving DecidableEq, Repr

/-- Retry handler of `getPhotos`, at the 0-based error `index` supplied by
`mergeMap`: `retryAttempt = index + 1`; give up past `MAX_RETRIES`; on a 429
use the parsed `Retry-After` seconds times 1000 when present; otherwise
exponential backoff `INITIAL_DELAY * 2 ^ (retryAttempt - 1)`. -/
def getPhotosRetryDecision (error : HttpError) (index : ℕ) : RetryDecision :=
  let retryAttempt := index + 1
  if retryAttempt > MAX_RETRIES then .fail
  else if error.status = 429 then
    match error.retryAfter with
    | some secs => .wait (secs * 1000)
    | none => .wait (INITIAL_DELAY * 2 ^ (retryAttempt - 1))
  else .wait (INITIAL_DELAY * 2 ^ (retryAttempt - 1))

/-- Retry handler of `getPhotoById`: give up once `index >= MAX_RETRIES`,
otherwise wait `INITIAL_DELAY * 2 ^ index`; it never consults the error, in
particular never a `Retry-After` header. -/
def getPhotoByIdRetryDecision (error : HttpError) (index : ℕ) : RetryDecision :=
  if index ≥ MAX_RETRIES then .fail
  else .wait (INITIAL_DELAY * 2 ^ index)

/-- A terminal `HttpErrorResponse` as consumed by `handleError`: its `status`,
its `message`, and, when `error.error` is a client-side `ErrorEvent`, that
event's message (`clientErrorEvent = some msg` models the
`error.error instanceof ErrorEvent` branch). -/
structure HttpErrorResponse where
  status : ℕ
  message : String
  clientErrorEvent : Option String
deriving DecidableEq, Repr

/-- Terminal error classification of `handleError`, returning the
human-readable message wrapped into the thrown `Error`. The source first
assigns the generic server-error template and then overwrites it for 429 and
then for 0, which nets to the if-chain below. -/
def handleError (error : HttpErrorResponse) : String :=
  match error.clientErrorEvent with
  | some msg => "Client Error: " ++ msg
  | none =>
    if error.status = 429 then "Rate limit exceeded. Please try again later."
    else if error.status = 0 then "Network error. Please check your connection."
    else "Server Error: " ++ toString error.status ++ " - " ++ error.message

/-- C10: `getPhotoById` issues its GET against the full list URL, query string
included, with `/` and the id appended, so the id lands after the
`_limit=20` parameter value rather than on the bare collection path. -/
theorem c10_url_appends_id_after_query (id : ℕ) :
    getPhotoByIdUrl id =
      "https://jsonplaceholder.typicode.com/photos?_page=1&_limit=20/" ++ toString id := by
  rfl

/-- C4: both operations cap retries at 4 — the handlers fail terminally exactly
when the 0-based error index reaches 4 (so at most 4 retries, 5 total
attempts) — and absent a server hint the k-th retry (k = index + 1 = 1..4)
waits `1000 * 2 ^ (k - 1)` ms, i.e. 1 s, 2 s, 4 s, 8 s. -/
theorem c4_retry_cap_and_backoff (error : HttpError) (index : ℕ) :
    (getPhotosRetryDecision error index = .fail ↔ 4 ≤ index) ∧
    (getPhotoByIdRetryDecision error index = .fail ↔ 4 ≤ index) ∧
    (error.retryAfter = none → index < 4 →
      getPhotosRetryDecision error index = .wait (1000 * 2 ^ index)) ∧
    (index < 4 → getPhotoByIdRetryDecision error index = .wait (1000 * 2 ^ index)) := by
  unfold getPhotosRetryDecision getPhotoByIdRetryDecision MAX_RETRIES INITIAL_DELAY
  refine ⟨?_, ?_, ?_, ?_⟩
  · constructor
    · intro hw
      by_contra hlt
      rw [if_neg (by omega)] at hw
      split at hw
      · cases h : error.retryAfter <;> rw [h] at hw <;> simp at hw
      · simp at hw
    · intro h4
      rw [if_pos (by omega)]
  · constructor
    · intro hw
      by_contra hlt
      rw [if_neg (by omega)] at hw
      simp at hw
    · intro h4
      rw [if_pos (by omega)]
  · intro hnone hlt
    rw [if_neg (by omega)]
    split
    · rw [hnone]
      simp
    · simp
  · intro hlt
    rw [if_neg (by omega)]

/-- Witness for C4 at concrete inputs: a 500 with no hint fails terminally at
index 4, and at index 2 both handlers wait 1000 * 2 ^ 2 = 4000 ms. -/
theorem c4_retry_cap_and_backoff_witness :
    getPhotosRetryDecision ⟨500, none⟩ 4 = .fail ∧
    getPhotosRetryDecision ⟨500, none⟩ 2 = .wait 4000 ∧
    getPhotoByIdRetryDecision ⟨500, none⟩ 2 = .wait 4000 :=
  ⟨(c4_retry_cap_and_backoff ⟨500, none⟩ 4).1.mpr (by norm_num),
   by
    have h := (c4_retry_cap_and_backoff ⟨500, none⟩ 2).2.2.1 rfl (by norm_num)
    simpa using h,
   by
    have h := (c4_retry_cap_and_backoff ⟨500, none⟩ 2).2.2.2 (by norm_num)
    simpa using h⟩

/-- C3 counterexample: a 429 failure carrying a parsed `Retry-After` of 7
seconds still makes `getPhotoById` wait the exponential-backoff 1000 ms at
index 0, not the hinted 7 * 1000 ms — the claim fails for `fetchById`. -/
theorem c3_counterexample :
    getPhotoByIdRetryDecision ⟨429, some 7⟩ 0 = .wait 1000 ∧
    RetryDecision.wait 1000 ≠ RetryDecision.wait (7 * 1000) := by
  decide

/-- C3 amended: only `getPhotos` honors the server hint, and only when the
status is 429 (waiting exactly the hinted seconds times 1000 ms); on any
non-429 failure `getPhotos` ignores the hint even when present and waits the
exponential backoff `1000 * 2 ^ index`; `getPhotoById` always waits the
exponential backoff `1000 * 2 ^ index` regardless of any hint. -/
theorem c3_retry_after_honored (error : HttpError) (index : ℕ) (secs : ℕ) :
    (index < 4 → error.status = 429 → error.retryAfter = some secs →
      getPhotosRetryDecision error index = .wait (secs * 1000)) ∧
    (index < 4 → error.status ≠ 429 →
      getPhotosRetryDecision error index = .wait (1000 * 2 ^ index)) ∧
    (index < 4 → getPhotoByIdRetryDecision error index = .wait (1000 * 2 ^ index)) := by
  unfold getPhotosRetryDecision getPhotoByIdRetryDecision MAX_RETRIES INITIAL_DELAY
  refine ⟨?_, ?_, ?_⟩
  · intro hlt h429 hra
    rw [if_neg (by omega), if_pos h429, hra]
  · intro hlt h429
    rw [if_neg (by omega), if_neg h429, Nat.add_sub_cancel]
  · intro hlt
    rw [if_neg (by omega)]

/-- Witness for C3's amended theorem: at index 1 a hinted 429 makes
`getPhotos` wait the hinted 7000 ms, the same hint on a 500 is ignored by
`getPhotos` (2000 ms backoff), and `getPhotoById` waits 2000 ms either way. -/
theorem c3_retry_after_honored_witness :
    getPhotosRetryDecision ⟨429, some 7⟩ 1 = .wait 7000 ∧
    getPhotosRetryDecision ⟨500, some 7⟩ 1 = .wait 2000 ∧
    getPhotoByIdRetryDecision ⟨429, some 7⟩ 1 = .wait 2000 :=
  ⟨by
    have h := (c3_retry_after_honored ⟨429, some 7⟩ 1 7).1 (by norm_num) rfl rfl
    simpa using h,
   by
    have h := (c3_retry_after_honored ⟨500, some 7⟩ 1 7).2.1 (by norm_num)
      (by norm_num)
    simpa using h,
   by
    have h := (c3_retry_after_honored ⟨429, some 7⟩ 1 7).2.2 (by norm_num)
    simpa using h⟩

/-- C9 counterexample: a terminal failure with status 0 whose payload is a
client-side `ErrorEvent` is reported as `Client Error: ...`, not as the
claimed network-error message — classification is not a function of the
status alone. -/
theorem c9_counterexample :
    handleError ⟨0, "Http failure", some "script blew up"⟩ =
      "Client Error: script blew up" ∧
    handleError ⟨0, "Http failure", some "script blew up"⟩ ≠
      "Network error. Please check your connection." := by
  decide

/-- C9 amended: when the payload is a client-side `ErrorEvent` the message is
`Client Error: ` followed by the event message, regardless of status;
otherwise the classification is exactly the claimed three-way split on the
status — 429 rate-limited, 0 network error, anything else a server error
carrying the status code. Every outcome is one of these four wrapped
human-readable messages. -/
theorem c9_error_classification (error : HttpErrorResponse) :
    (∀ msg, error.clientErrorEvent = some msg →
      handleError error = "Client Error: " ++ msg) ∧
    (error.clientErrorEvent = none → error.status = 429 →
      handleError error = "Rate limit exceeded. Please try again later.") ∧
    (error.clientErrorEvent = none → error.status = 0 →
      handleError error = "Network error. Please check your connection.") ∧
    (error.clientErrorEvent = none → error.status ≠ 429 → error.status ≠ 0 →
      handleError error =
        "Server Error: " ++ toString error.status ++ " - " ++ error.message) := by
  unfold handleError
  refine ⟨?_, ?_, ?_, ?_⟩
  · intro msg hmsg
    rw [hmsg]
  · intro hnone h429
    rw [hnone, if_pos h429]
  · intro hnone h0
    rw [hnone]
    have h429 : error.status ≠ 429 := by omega
    rw [if_neg h429, if_pos h0]
  · intro hnone h429 h0
    rw [hnone, if_neg h429, if_neg h0]

/-- Witness for C9's amended theorem: the four message forms at concrete
inputs. -/
theorem c9_error_classification_witness :
    handleError ⟨0, "m", some "boom"⟩ = "Client Error: boom" ∧
    handleError ⟨429, "m", none⟩ = "Rate limit exceeded. Please try again later." ∧
    handleError ⟨0, "m", none⟩ = "Network error. Please check your connection." ∧
    handleError ⟨500, "Http failure", none⟩ = "Server Error: 500 - Http failure" :=
  ⟨(c9_error_classification ⟨0, "m", some "boom"⟩).1 "boom" rfl,
   (c9_error_classification ⟨429, "m", none⟩).2.1 rfl rfl,
   (c9_error_classification ⟨0, "m", none⟩).2.2.1 rfl rfl,
   by
    have h := (c9_error_classification ⟨500, "Http failure", none⟩).2.2.2 rfl
      (by norm_num) (by norm_num)
    simpa using h⟩

/-! ### Cluster engine

The TS object spreads `{ ...photo, extraField }` are modelled by records that
nest the original `Photo` and add the derived fields. -/

/-- A photo with its stage-1 complexity score (`scoredPhotos` element). -/
structure ScoredPhoto where
  photo : Photo
  complexityScore : ℝ

/-- A scored photo with its stage-2 non-linear weight (`weightedPhotos`
element). -/
structure WeightedPhoto where
  photo : Photo
  complexityScore : ℝ
  weight : ℝ

/-- A weighted photo with its normalized weight (`normalizedPhotos`
element). -/
structure NormalizedPhoto where
  photo : Photo
  complexityScore : ℝ
  weight : ℝ
  normalizedWeight : ℝ

/-- The four cluster labels of the `ClusterResult` interface. -/
inductive ClusterLabel where
  | A | B | C | D
deriving DecidableEq, Repr

/-- One returned group: the `ClusterResult` interface (its `complexityScore`
and `weight` fields hold the per-cluster averages). -/
structure ClusterResult where
  cluster : ClusterLabel
  photos : List NormalizedPhoto
  complexityScore : ℝ
  weight : ℝ

/-- JS `title.toLowerCase()`, modelled characterwise. -/
def jsToLowerCase (s : String) : String := ⟨s.data.map Char.toLower⟩

noncomputable section

/-- The `calculateCharacterVariance` helper: `chars` is the lowercased title
split into characters, `uniqueChars` the size of `new Set(chars)`, and the
result `(uniqueChars / (totalChars || 1)) * 100`; the JS `|| 1` turns a zero
denominator into 1. -/
def calculateCharacterVariance (title : String) : ℝ :=
  let chars := (jsToLowerCase title).data
  let uniqueChars := chars.dedup.length
  let totalChars := chars.length
  ((uniqueChars : ℝ) / (if totalChars = 0 then (1 : ℝ) else (totalChars : ℝ))) * 100

/-- The `calculateComplexityScore` helper of the source. -/
def calculateComplexityScore (photo : Photo) : ℝ :=
  let titleLength := photo.title.length
  let albumId := photo.albumId
  let idModulo := photo.id % 13
  let charVariance := calculateCharacterVariance photo.title
  (titleLength : ℝ) * 2.5 + (albumId : ℝ) * 1.8 + (idModulo : ℝ) * 3.2 +
    charVariance * 4.1

/-- The `calculateNonLinearWeight` helper of the source. -/
def calculateNonLinearWeight (score : ℝ) (albumId : ℕ) (id : ℕ) : ℝ :=
  let logComponent := Real.log (score + 1)
  let sqrtComponent := Real.sqrt (albumId : ℝ)
  let trigComponent := 1 + Real.sin ((id : ℝ) / 100)
  logComponent * sqrtComponent * trigComponent

/-- The `scoredPhotos` intermediate of `clusterPhotos`. -/
def scorePhotos (photos : List Photo) : List ScoredPhoto :=
  photos.map fun photo =>
    { photo := photo, complexityScore := calculateComplexityScore photo }

/-- The `weightedPhotos` intermediate of `clusterPhotos`. -/
def weightPhotos (photos : List Photo) : List WeightedPhoto :=
  (scorePhotos photos).map fun photo =>
    { photo := photo.photo
      complexityScore := photo.complexityScore
      weight :=
        calculateNonLinearWeight photo.complexityScore photo.photo.albumId
          photo.photo.id }

/-- The `maxWeight` local of `clusterPhotos`, `Math.max(...weights)`. On the
empty batch JS yields `-Infinity`; that value is only ever consumed by the
normalizing map over the same (then empty) list, so the `getD` default is
unobservable. -/
def maxWeightOf (photos : List Photo) : ℝ :=
  (((weightPhotos photos).map WeightedPhoto.weight).max?).getD 0

/-- The `minWeight` local of `clusterPhotos`, `Math.min(...weights)`; same
empty-batch remark as for `maxWeightOf`. -/
def minWeightOf (photos : List Photo) : ℝ :=
  (((weightPhotos photos).map WeightedPhoto.weight).min?).getD 0

/-- The `normalizedPhotos` intermediate of `clusterPhotos`:
`(weight - minWeight) / (maxWeight - minWeight || 1)`, the JS `|| 1` turning a
zero denominator into 1. -/
def normalizePhotos (photos : List Photo) : List NormalizedPhoto :=
  let maxWeight := maxWeightOf photos
  let minWeight := minWeightOf photos
  (weightPhotos photos).map fun photo =>
    { photo := photo.photo
      complexityScore := photo.complexityScore
      weight := photo.weight
      normalizedWeight :=
        (photo.weight - minWeight) /
          (if maxWeight - minWeight = 0 then 1 else maxWeight - minWeight) }

/-- Comparator of the source's `sort((a, b) => b.normalizedWeight -
a.normalizedWeight)`: `a` may precede `b` exactly when the comparator value is
not positive, i.e. `b.normalizedWeight ≤ a.normalizedWeight`. -/
def sortLe (a b : NormalizedPhoto) : Bool :=
  decide (b.normalizedWeight ≤ a.normalizedWeight)

/-- The `sorted` intermediate of `clusterPhotos`. `Array.prototype.sort` is
stable (ES2019), which `List.mergeSort` models. -/
def sortPhotos (photos : List Photo) : List NormalizedPhoto :=
  (normalizePhotos photos).mergeSort sortLe

end

/-- JS `Array.prototype.slice(start, stop)` for the in-range arguments
`clusterPhotos` uses. -/
def jsSlice (l : List α) (start stop : ℕ) : List α := (l.drop start).take (stop - start)

/-- JS `Array.prototype.slice(start)`. -/
def jsSliceFrom (l : List α) (start : ℕ) : List α := l.drop start

noncomputable section

/-- The `getAverageScore` helper: 0 on an empty list, else the
`reduce`-accumulated sum of scores over the length (the JS `|| 0` fallback on
each score is the identity on real scores). -/
def getAverageScore (photos : List NormalizedPhoto) : ℝ :=
  if photos.length = 0 then 0
  else (photos.foldl (fun acc p => acc + p.complexityScore) 0) / (photos.length : ℝ)

/-- The `getAverageWeight` helper, averaging `normalizedWeight`. -/
def getAverageWeight (photos : List NormalizedPhoto) : ℝ :=
  if photos.length = 0 then 0
  else (photos.foldl (fun acc p => acc + p.normalizedWeight) 0) / (photos.length : ℝ)

/-- The `clusterPhotos` method: score, weight, normalize, sort, then slice
into quartiles of size `Math.ceil(sorted.length / 4)` (which is
`(length + 3) / 4` in ℕ), labels fixed in the order A, B, C, D. -/
def clusterPhotos (photos : List Photo) : List ClusterResult :=
  let sorted := sortPhotos photos
  let quartileSize := (sorted.length + 3) / 4
  [{ cluster := .A
     photos := jsSlice sorted 0 quartileSize
     complexityScore := getAverageScore (jsSlice sorted 0 quartileSize)
     weight := getAverageWeight (jsSlice sorted 0 quartileSize) },
   { cluster := .B
     photos := jsSlice sorted quartileSize (quartileSize * 2)
     complexityScore := getAverageScore (jsSlice sorted quartileSize (quartileSize * 2))
     weight := getAverageWeight (jsSlice sorted quartileSize (quartileSize * 2)) },
   { cluster := .C
     photos := jsSlice sorted (quartileSize * 2) (quartileSize * 3)
     complexityScore := getAverageScore (jsSlice sorted (quartileSize * 2) (quartileSize * 3))
     weight := getAverageWeight (jsSlice sorted (quartileSize * 2) (quartileSize * 3)) },
   { cluster := .D
     photos := jsSliceFrom sorted (quartileSize * 3)
     complexityScore := getAverageScore (jsSliceFrom sorted (quartileSize * 3))
     weight := getAverageWeight (jsSliceFrom sorted (quartileSize * 3)) }]

end

/-! ### Shared structural lemmas about the cluster engine -/

/-- Slicing a list at 0, q, 2q, 3q and concatenating recovers the list. -/
theorem take_drop_quarters (s : List α) (q : ℕ) :
    s.take q ++ ((s.drop q).take q ++ ((s.drop (q * 2)).take q ++ s.drop (q * 3))) = s := by
  have h2 : s.drop (q * 2) = (s.drop q).drop q := by
    rw [List.drop_drop]
    congr 1
    omega
  have h3 : s.drop (q * 3) = (s.drop (q * 2)).drop q := by
    have hq : q * 3 = q * 2 + q := by ring
    rw [List.drop_drop, ← hq]
  rw [h3, List.take_append_drop, h2, List.take_append_drop, List.take_append_drop]

/-- Concatenating the four clusters' photo lists in order recovers the sorted
list. -/
theorem clusterPhotos_flatten (photos : List Photo) :
    ((clusterPhotos photos).map ClusterResult.photos).flatten = sortPhotos photos := by
  have hq2 : ∀ q : ℕ, q * 2 - q = q := fun q => by omega
  have hq3 : ∀ q : ℕ, q * 3 - q * 2 = q := fun q => by omega
  simp only [clusterPhotos, List.map_cons, List.map_nil, List.flatten_cons,
    List.flatten_nil, List.append_nil, jsSlice, jsSliceFrom, List.drop_zero,
    Nat.sub_zero, hq2, hq3]
  exact take_drop_quarters _ _

/-- Projecting the normalized pipeline output back to the raw photos recovers
the input batch. -/
theorem normalizePhotos_map_photo (photos : List Photo) :
    (normalizePhotos photos).map NormalizedPhoto.photo = photos := by
  simp [normalizePhotos, weightPhotos, scorePhotos, List.map_map, Function.comp_def]

/-- The sorted list is a permutation of the normalized list. -/
theorem sortPhotos_perm (photos : List Photo) :
    (sortPhotos photos).Perm (normalizePhotos photos) :=
  List.mergeSort_perm _ _

/-- The pipeline stages preserve the batch size. -/
theorem sortPhotos_length (photos : List Photo) :
    (sortPhotos photos).length = photos.length := by
  simp [sortPhotos, normalizePhotos, weightPhotos, scorePhotos]

/-- Cluster sizes, in the saturating form integer slicing actually produces. -/
theorem clusterPhotos_sizes (photos : List Photo) :
    (clusterPhotos photos).map (fun c => c.photos.length) =
      [min ((photos.length + 3) / 4) photos.length,
       min ((photos.length + 3) / 4) (photos.length - (photos.length + 3) / 4),
       min ((photos.length + 3) / 4) (photos.length - ((photos.length + 3) / 4) * 2),
       photos.length - ((photos.length + 3) / 4) * 3] := by
  have hq2 : ∀ q : ℕ, q * 2 - q = q := fun q => by omega
  have hq3 : ∀ q : ℕ, q * 3 - q * 2 = q := fun q => by omega
  simp only [clusterPhotos, List.map_cons, List.map_nil, jsSlice, jsSliceFrom,
    List.drop_zero, Nat.sub_zero, hq2, hq3, List.length_take, List.length_drop,
    sortPhotos_length]

/-- C1: the four groups partition the input batch exactly — concatenating the
A, B, C, D photo lists in that order and projecting each entry back to its
underlying photo is a permutation of the input (no duplication, no loss) —
and the labels come in the fixed order A, B, C, D. -/
theorem c1_partition_exact (photos : List Photo) :
    ((((clusterPhotos photos).map ClusterResult.photos).flatten).map
        NormalizedPhoto.photo).Perm photos ∧
    (clusterPhotos photos).map ClusterResult.cluster =
      [ClusterLabel.A, ClusterLabel.B, ClusterLabel.C, ClusterLabel.D] := by
  constructor
  · rw [clusterPhotos_flatten]
    have h := (sortPhotos_perm photos).map NormalizedPhoto.photo
    rw [normalizePhotos_map_photo] at h
    exact h
  · simp [clusterPhotos]

/-- C2 amended: with n the batch size and q = ceil(n/4) = (n+3)/4, the cluster
sizes are min q n, min q (n−q), min q (n−2q) and n−3q in saturating ℕ
arithmetic; they equal the claimed q, q, q, n−3q only when 3q ≤ n (all n
except 1, 2 and 5), and for n = 0 all four clusters are empty. -/
theorem c2_cluster_sizes (photos : List Photo) :
    (clusterPhotos photos).map (fun c => c.photos.length) =
      [min ((photos.length + 3) / 4) photos.length,
       min ((photos.length + 3) / 4) (photos.length - (photos.length + 3) / 4),
       min ((photos.length + 3) / 4) (photos.length - ((photos.length + 3) / 4) * 2),
       photos.length - ((photos.length + 3) / 4) * 3] :=
  clusterPhotos_sizes photos

/-- A concrete photo used for counterexamples and witnesses. -/
def p0 : Photo :=
  { albumId := 1, id := 1, title := "a", url := "u", thumbnailUrl := "t" }

/-- C2 counterexample: on a batch of one photo, ceil(1/4) = 1 yet cluster B is
empty, so |B| = ceil(n/4) fails (and over ℤ the claimed |D| = n − 3·ceil(n/4)
would be −2, contradicting |D| ≥ 0). -/
theorem c2_counterexample :
    (clusterPhotos [p0]).map (fun c => c.photos.length) = [1, 0, 0, 0] ∧
    (1 + 3) / 4 = 1 ∧ (0 : ℕ) ≠ 1 := by
  refine ⟨?_, by norm_num, by norm_num⟩
  have h := clusterPhotos_sizes [p0]
  simpa using h

/-- C8: the empty batch produces exactly four clusters labeled A, B, C, D in
that order, each with no photos, mean complexity score 0 and mean normalized
weight 0. -/
theorem c8_empty_batch :
    clusterPhotos [] =
      [{ cluster := .A, photos := [], complexityScore := 0, weight := 0 },
       { cluster := .B, photos := [], complexityScore := 0, weight := 0 },
       { cluster := .C, photos := [], complexityScore := 0, weight := 0 },
       { cluster := .D, photos := [], complexityScore := 0, weight := 0 }] := by
  simp [clusterPhotos, sortPhotos, normalizePhotos, weightPhotos, scorePhotos,
    jsSlice, jsSliceFrom, getAverageScore, getAverageWeight]

/-! ### C5: spec formulas versus source formulas -/

noncomputable section

/-- Spec-side stage-1 formula, written from the spec's words: `complexityScore
= titleLength*2.5 + groupId*1.8 + idMod*3.2 + charVariance*4.1` with
`charVariance = (count of distinct characters in lowercase(title) /
max(titleLength,1)) * 100`, reading the spec's groupId as the item's
albumId. -/
def specComplexityScore (item : Photo) : ℝ :=
  let titleLength := item.title.length
  let idMod := item.id % 13
  let charVariance :=
    (((jsToLowerCase item.title).data.dedup.length : ℝ) /
      ((max titleLength 1 : ℕ) : ℝ)) * 100
  (titleLength : ℝ) * 2.5 + (item.albumId : ℝ) * 1.8 + (idMod : ℝ) * 3.2 +
    charVariance * 4.1

/-- Spec-side stage-2 formula: `weight = ln(complexityScore + 1) *
sqrt(groupId) * (1 + sin(id / 100))`, groupId again read as albumId. -/
def specWeight (item : Photo) : ℝ :=
  Real.log (specComplexityScore item + 1) * Real.sqrt (item.albumId : ℝ) *
    (1 + Real.sin ((item.id : ℝ) / 100))

end

/-- Lowercasing does not change the character count. -/
theorem jsToLowerCase_length (s : String) :
    (jsToLowerCase s).data.length = s.length := by
  show (s.data.map Char.toLower).length = s.data.length
  simp

/-- The JS `|| 1` zero-denominator guard agrees with the spec's
`max(titleLength, 1)`. -/
theorem ite_eq_cast_max (n : ℕ) :
    (if n = 0 then (1 : ℝ) else (n : ℝ)) = ((max n 1 : ℕ) : ℝ) := by
  rcases n with _ | m
  · simp
  · have h : max (m + 1) 1 = m + 1 := by omega
    simp [h]

/-- C5: for every item the derived quantities equal the spec formulas —
`calculateComplexityScore` matches the spec's complexityScore (with
`totalChars || 1` matching `max(titleLength, 1)`), and
`calculateNonLinearWeight` applied to that score, the albumId and the id
matches the spec's weight formula. -/
theorem c5_formulas_match (photo : Photo) :
    calculateComplexityScore photo = specComplexityScore photo ∧
    calculateNonLinearWeight (calculateComplexityScore photo) photo.albumId photo.id
      = specWeight photo := by
  have hscore : calculateComplexityScore photo = specComplexityScore photo := by
    simp only [calculateComplexityScore, specComplexityScore,
      calculateCharacterVariance, jsToLowerCase_length, ite_eq_cast_max]
  exact ⟨hscore, by simp only [calculateNonLinearWeight, specWeight, hscore]⟩

/-! ### C6: degenerate normalization -/

/-- C6: if every weighted photo carries the same weight, every item's
normalized weight is exactly 0, sorting leaves the normalized list unchanged,
and the clusters therefore slice the batch in stable original input order. -/
theorem c6_degenerate_normalization (photos : List Photo)
    (h : ∀ p ∈ weightPhotos photos, ∀ q ∈ weightPhotos photos,
      p.weight = q.weight) :
    (∀ x ∈ normalizePhotos photos, x.normalizedWeight = 0) ∧
    sortPhotos photos = normalizePhotos photos ∧
    ((clusterPhotos photos).map ClusterResult.photos).flatten =
      normalizePhotos photos := by
  have hzero : ∀ x ∈ normalizePhotos photos, x.normalizedWeight = 0 := by
    intro x hx
    simp only [normalizePhotos, List.mem_map] at hx
    obtain ⟨p, hp, rfl⟩ := hx
    show (p.weight - minWeightOf photos) /
      (if maxWeightOf photos - minWeightOf photos = 0 then 1
       else maxWeightOf photos - minWeightOf photos) = 0
    have hmem : p.weight ∈ (weightPhotos photos).map WeightedPhoto.weight :=
      List.mem_map_of_mem _ hp
    obtain ⟨m, hm⟩ :
        ∃ m, ((weightPhotos photos).map WeightedPhoto.weight).min? = some m := by
      cases hmin : ((weightPhotos photos).map WeightedPhoto.weight).min? with
      | none =>
        rw [List.min?_eq_none_iff] at hmin
        rw [hmin] at hmem
        exact absurd hmem (List.not_mem_nil _)
      | some m => exact ⟨m, rfl⟩
    have hmmem := List.min?_mem (fun _ _ => min_choice _ _) hm
    obtain ⟨w, hw, hwe⟩ := List.mem_map.mp hmmem
    have hminp : minWeightOf photos = p.weight := by
      unfold minWeightOf
      rw [hm, Option.getD_some, ← hwe]
      exact h w hw p hp
    rw [hminp, sub_self, zero_div]
  have hpair : (normalizePhotos photos).Pairwise (fun a b => sortLe a b = true) := by
    refine List.pairwise_of_forall_mem_list ?_
    intro a ha b hb
    simp [sortLe, hzero a ha, hzero b hb]
  have hsorted : sortPhotos photos = normalizePhotos photos :=
    List.mergeSort_of_sorted hpair
  exact ⟨hzero, hsorted, by rw [clusterPhotos_flatten, hsorted]⟩

/-- Witness for C6: a two-copy batch of the same photo trivially has all
weights equal, and its normalized weights are 0. -/
theorem c6_degenerate_normalization_witness :
    (∀ p ∈ weightPhotos [p0, p0], ∀ q ∈ weightPhotos [p0, p0],
      p.weight = q.weight) ∧
    (∀ x ∈ normalizePhotos [p0, p0], x.normalizedWeight = 0) := by
  have h : ∀ p ∈ weightPhotos [p0, p0], ∀ q ∈ weightPhotos [p0, p0],
      p.weight = q.weight := by
    intro p hp q hq
    simp only [weightPhotos, scorePhotos, List.map_cons, List.map_nil,
      List.mem_cons, List.not_mem_nil, or_false, or_self] at hp hq
    rw [hp, hq]
  exact ⟨h, (c6_degenerate_normalization [p0, p0] h).1⟩

/-! ### C7: descending order and stability -/

/-- The sort comparator is transitive. -/
theorem sortLe_trans (a b c : NormalizedPhoto) :
    sortLe a b → sortLe b c → sortLe a c := by
  simp only [sortLe, decide_eq_true_eq]
  intro h1 h2
  exact le_trans h2 h1

/-- The sort comparator is total. -/
theorem sortLe_total (a b : NormalizedPhoto) : sortLe a b || sortLe b a := by
  simp only [sortLe, Bool.or_eq_true, decide_eq_true_eq]
  exact le_total _ _

/-- The sorted list is pairwise descending in normalized weight. -/
theorem sortPhotos_pairwise (photos : List Photo) :
    (sortPhotos photos).Pairwise
      (fun a b => b.normalizedWeight ≤ a.normalizedWeight) := by
  have h := List.sorted_mergeSort sortLe_trans sortLe_total (normalizePhotos photos)
  refine List.Pairwise.imp ?_ h
  intro a b hab
  simpa [sortLe] using hab

/-- Every slice `slice(start, stop)` is a sublist of the sliced list. -/
theorem jsSlice_sublist (l : List α) (start stop : ℕ) :
    (jsSlice l start stop).Sublist l :=
  (List.take_sublist _ _).trans (List.drop_sublist _ _)

/-- Fallback cluster value for out-of-range indexing. -/
noncomputable def emptyClusterResult : ClusterResult :=
  { cluster := .A, photos := [], complexityScore := 0, weight := 0 }

/-- C7: every cluster's photo list is ordered by descending normalizedWeight;
every photo of cluster A (slot 0) has normalizedWeight ≥ every photo of
cluster D (slot 3); and the sort is stable — any sublist of the normalized
input that is weakly descending for the comparator survives as a sublist of
the sorted output, so tied items keep their original input order. -/
theorem c7_descending_order_and_stability (photos : List Photo) :
    (∀ c ∈ clusterPhotos photos,
      c.photos.Pairwise (fun a b => b.normalizedWeight ≤ a.normalizedWeight)) ∧
    (∀ a ∈ ((clusterPhotos photos).getD 0 emptyClusterResult).photos,
      ∀ d ∈ ((clusterPhotos photos).getD 3 emptyClusterResult).photos,
        d.normalizedWeight ≤ a.normalizedWeight) ∧
    (∀ sub : List NormalizedPhoto, sub.Sublist (normalizePhotos photos) →
      sub.Pairwise (fun a b => sortLe a b = true) →
      sub.Sublist (sortPhotos photos)) := by
  have hpw := sortPhotos_pairwise photos
  refine ⟨?_, ?_, ?_⟩
  · intro c hc
    simp only [clusterPhotos, List.mem_cons, List.not_mem_nil, or_false] at hc
    rcases hc with hc | hc | hc | hc <;> rw [hc] <;>
      first
        | exact List.Pairwise.sublist (jsSlice_sublist _ _ _) hpw
        | exact List.Pairwise.sublist (List.drop_sublist _ _) hpw
  · intro a ha d hd
    simp only [clusterPhotos, List.getD_cons_zero, List.getD_cons_succ, jsSlice,
      jsSliceFrom, List.drop_zero, Nat.sub_zero] at ha hd
    set s := sortPhotos photos with hs
    set q := (s.length + 3) / 4 with hq
    have hp2 : (s.take (q * 3) ++ s.drop (q * 3)).Pairwise
        (fun a b => b.normalizedWeight ≤ a.normalizedWeight) := by
      rw [List.take_append_drop]
      exact hpw
    have cross := (List.pairwise_append.mp hp2).2.2
    have hmin : min q (q * 3) = q := by omega
    have htq : s.take q = (s.take (q * 3)).take q := by
      rw [List.take_take, hmin]
    refine cross a ?_ d hd
    rw [htq] at ha
    exact (List.take_sublist _ _).subset ha
  · intro sub hsub hpairwise
    exact List.sublist_mergeSort sortLe_trans sortLe_total hpairwise hsub

/-- Witness for C7: the singleton normalized batch is trivially descending and
survives sorting as a sublist of the sorted output. -/
theorem c7_descending_order_and_stability_witness :
    (normalizePhotos [p0]).Pairwise (fun a b => sortLe a b = true) ∧
    (normalizePhotos [p0]).Sublist (sortPhotos [p0]) := by
  have hp : (normalizePhotos [p0]).Pairwise (fun a b => sortLe a b = true) := by
    simp [normalizePhotos, weightPhotos, scorePhotos]
  exact ⟨hp,
    (c7_descending_order_and_stability [p0]).2.2 _ (List.Sublist.refl _) hp⟩

end PhotoService
